import Mathlib

/-!
Verification of the Rainbow light-curve fitting code
(`light_curve_py/features/rainbow`): a shallow embedding of the
parameter-merging logic, the strategy initial-guess / limits generators,
the unscaling of fitted parameters, and the guarded exponential forms of
the bolometric and temperature strategies, together with proofs of the
specified properties.

Rational numbers model the exact arithmetic of the guess/limit/scaling
code; real numbers model the arithmetic of the exponential model
functions `sigmoid`, `bazin` and `logistic`.
-/

namespace Rainbow

/-! ### numpy helpers on lists (np.max, np.min, np.ptp, np.argmax, np.median) -/

/-- `np.max` of a 1-d array, modelled on lists (0 on the empty list,
which numpy rejects; all uses below assume a non-empty list). -/
def npMax : List ℚ → ℚ
  | [] => 0
  | [x] => x
  | x :: y :: xs => max x (npMax (y :: xs))

/-- `np.min` of a 1-d array, modelled on lists. -/
def npMin : List ℚ → ℚ
  | [] => 0
  | [x] => x
  | x :: y :: xs => min x (npMin (y :: xs))

/-- `np.ptp`: peak-to-peak, max minus min. -/
def npPtp (l : List ℚ) : ℚ := npMax l - npMin l

/-- `np.argmax`: index of the first occurrence of the maximum. -/
def npArgmax (m : List ℚ) : Nat := m.indexOf (npMax m)

theorem npMax_mem : ∀ {l : List ℚ}, l ≠ [] → npMax l ∈ l
  | [], h => absurd rfl h
  | [x], _ => by simp [npMax]
  | x :: y :: xs, _ => by
    rcases le_total x (npMax (y :: xs)) with h | h
    · have := npMax_mem (l := y :: xs) (by simp)
      simp [npMax, max_eq_right h, this]
    · simp [npMax, max_eq_left h]

theorem le_npMax : ∀ {l : List ℚ} {x : ℚ}, x ∈ l → x ≤ npMax l
  | [], _, h => by simp at h
  | [y], x, h => by simp at h; simp [npMax, h]
  | y :: z :: xs, x, h => by
    rcases List.mem_cons.mp h with rfl | h
    · simp [npMax]
    · exact le_trans (le_npMax h) (by simp [npMax])

theorem npMin_le : ∀ {l : List ℚ} {x : ℚ}, x ∈ l → npMin l ≤ x
  | [], _, h => by simp at h
  | [y], x, h => by simp at h; simp [npMin, h]
  | y :: z :: xs, x, h => by
    rcases List.mem_cons.mp h with rfl | h
    · simp [npMin]
    · exact le_trans (by simp [npMin]) (npMin_le h)

/-! ### Strategy dictionaries (bolometric.py and temperature.py)

Initial-guess and limits dictionaries are modelled as insertion-ordered
association lists, mirroring Python dictionaries. -/

/-- `sigmoid_initial_guesses` from bolometric.py. -/
def sigmoid_initial_guesses (baseline : Bool) (t m : List ℚ) (_band : List String) :
    List (String × ℚ) :=
  let A := if baseline then npPtp m else npMax m
  [("reference_time", t.getD (npArgmax m) 0), ("amplitude", A), ("rise_time", 1)]

/-- `sigmoid_limits` from bolometric.py. -/
def sigmoid_limits (baseline : Bool) (t m : List ℚ) (_band : List String) :
    List (String × ℚ × ℚ) :=
  let t_amplitude := npPtp t
  let m_amplitude := if baseline then npPtp m else npMax m
  [("reference_time", (npMin t - 10 * t_amplitude, npMax t + 10 * t_amplitude)),
   ("amplitude", (0, 10 * m_amplitude)),
   ("rise_time", (1 / 10000, 10 * t_amplitude))]

/-- `bazin_initial_guesses` from bolometric.py. -/
def bazin_initial_guesses (baseline : Bool) (t m : List ℚ) (_band : List String) :
    List (String × ℚ) :=
  let A := if baseline then npPtp m else npMax m
  [("reference_time", t.getD (npArgmax m) 0), ("amplitude", A),
   ("rise_time", 1 / 10), ("fall_time", 1 / 10)]

/-- `bazin_limits` from bolometric.py. -/
def bazin_limits (baseline : Bool) (t m : List ℚ) (_band : List String) :
    List (String × ℚ × ℚ) :=
  let t_amplitude := npPtp t
  let m_amplitude := if baseline then npPtp m else npMax m
  [("reference_time", (npMin t - 10 * t_amplitude, npMax t + 10 * t_amplitude)),
   ("amplitude", (0, 10 * m_amplitude)),
   ("rise_time", (1 / 10000, 10 * t_amplitude)),
   ("fall_time", (1 / 10000, 10 * t_amplitude))]

/-- `constant_initial_guesses` from temperature.py. -/
def constant_initial_guesses (_t _m : List ℚ) (_band : List String) :
    List (String × ℚ) :=
  [("T", 8000)]

/-- `constant_limits` from temperature.py. -/
def constant_limits (_t _m : List ℚ) (_band : List String) :
    List (String × ℚ × ℚ) :=
  [("T", (100, 2000000))]

/-- `logistic_initial_guesses` from temperature.py. -/
def logistic_initial_guesses (_t _m : List ℚ) (_band : List String) :
    List (String × ℚ) :=
  [("Tmin", 4000), ("Tmax", 10000), ("k_sig", 1)]

/-- `logistic_limits` from temperature.py. -/
def logistic_limits (t _m : List ℚ) (_band : List String) :
    List (String × ℚ × ℚ) :=
  let t_amplitude := npPtp t
  [("Tmin", (100, 1000000)), ("Tmax", (100, 1000000)),
   ("k_sig", (1 / 10000, 10 * t_amplitude))]

/-- The keys of `bolometric_dict` in bolometric.py. -/
inductive BoloStrat
  | sigmoid
  | bazin
deriving DecidableEq

/-- The keys of `temperature_dict` in temperature.py. -/
inductive TempStrat
  | constant
  | logistic
deriving DecidableEq

/-- Parameter-name lists stored in `bolometric_dict`. -/
def bolo_parameter_names : BoloStrat → List String
  | .sigmoid => ["reference_time", "amplitude", "rise_time"]
  | .bazin => ["reference_time", "amplitude", "rise_time", "fall_time"]

/-- Parameter-name lists stored in `temperature_dict`. -/
def temp_parameter_names : TempStrat → List String
  | .constant => ["T"]
  | .logistic => ["reference_time", "Tmin", "Tmax", "k_sig"]

/-- Initial-guess generators stored in `bolometric_dict`. -/
def bolo_initial_guesses : BoloStrat → Bool → List ℚ → List ℚ → List String → List (String × ℚ)
  | .sigmoid => sigmoid_initial_guesses
  | .bazin => bazin_initial_guesses

/-- Limits generators stored in `bolometric_dict`. -/
def bolo_limits : BoloStrat → Bool → List ℚ → List ℚ → List String → List (String × ℚ × ℚ)
  | .sigmoid => sigmoid_limits
  | .bazin => bazin_limits

/-- Initial-guess generators stored in `temperature_dict`. -/
def temp_initial_guesses : TempStrat → List ℚ → List ℚ → List String → List (String × ℚ)
  | .constant => constant_initial_guesses
  | .logistic => logistic_initial_guesses

/-- Limits generators stored in `temperature_dict`. -/
def temp_limits : TempStrat → List ℚ → List ℚ → List String → List (String × ℚ × ℚ)
  | .constant => constant_limits
  | .logistic => logistic_limits

/-! ### Python dictionary union -/

/-- Python `d1 | d2` on insertion-ordered dictionaries: the keys of `d1`
in order, each carrying `d2`'s value when the key is also in `d2`,
followed by the keys of `d2` not in `d1`, in order. -/
def dictUnion {α : Type} (d1 d2 : List (String × α)) : List (String × α) :=
  d1.map (fun p => match d2.lookup p.1 with | some v => (p.1, v) | none => p) ++
    d2.filter (fun p => (d1.lookup p.1).isNone)

/-- The key sequence of a dictionary. -/
def dictKeys {α : Type} (d : List (String × α)) : List String := d.map Prod.fst

/-- `RainbowGeneralFit._initial_guesses`: merge of the bolometric and
temperature strategies' initial guesses via Python dictionary union. -/
def initial_guesses (bs : BoloStrat) (ts : TempStrat) (with_baseline : Bool)
    (t m : List ℚ) (band : List String) : List (String × ℚ) :=
  dictUnion (bolo_initial_guesses bs with_baseline t m band) (temp_initial_guesses ts t m band)

/-- `RainbowGeneralFit._limits`: merge of the bolometric and temperature
strategies' limits via Python dictionary union. -/
def limits (bs : BoloStrat) (ts : TempStrat) (with_baseline : Bool)
    (t m : List ℚ) (band : List String) : List (String × ℚ × ℚ) :=
  dictUnion (bolo_limits bs with_baseline t m band) (temp_limits ts t m band)

theorem lookup_map_adjust {α : Type} (d1 d2 : List (String × α)) (k : String)
    (h : d2.lookup k = none) :
    (d1.map (fun p => match d2.lookup p.1 with | some v => (p.1, v) | none => p)).lookup k =
      d1.lookup k := by
  induction d1 with
  | nil => rfl
  | cons p d1 ih =>
    obtain ⟨a, b⟩ := p
    by_cases hk : k = a
    · subst hk
      simp [List.lookup, h]
    · have hba : (k == a) = false := beq_false_of_ne hk
      cases hv : d2.lookup a <;> simp [List.lookup, hba, hv, ih]

theorem lookup_filter_none {α : Type} (d : List (String × α)) (q : String × α → Bool)
    (k : String) (h : d.lookup k = none) : (d.filter q).lookup k = none := by
  induction d with
  | nil => rfl
  | cons p d ih =>
    obtain ⟨a, b⟩ := p
    by_cases hk : k = a
    · subst hk
      simp [List.lookup] at h
    · have hba : (k == a) = false := beq_false_of_ne hk
      simp only [List.lookup, hba] at h
      by_cases hq : q (a, b) <;> simp [List.filter, hq, List.lookup, hba, ih h]

theorem lookup_dictUnion_left {α : Type} (d1 d2 : List (String × α)) (k : String)
    (h : d2.lookup k = none) : (dictUnion d1 d2).lookup k = d1.lookup k := by
  unfold dictUnion
  rw [List.lookup_append, lookup_map_adjust d1 d2 k h,
    lookup_filter_none d2 _ k h]
  cases d1.lookup k <;> rfl

theorem bolo_keys_subset (bs : BoloStrat) (wb : Bool) (t m : List ℚ) (band : List String)
    (k : String) (hk : k ∈ dictKeys (bolo_initial_guesses bs wb t m band)) :
    k = "reference_time" ∨ k = "amplitude" ∨ k = "rise_time" ∨ k = "fall_time" := by
  cases bs with
  | sigmoid =>
    have h3 : k = "reference_time" ∨ k = "amplitude" ∨ k = "rise_time" := by
      simpa [bolo_initial_guesses, sigmoid_initial_guesses, dictKeys, or_assoc] using hk
    tauto
  | bazin =>
    simpa [bolo_initial_guesses, bazin_initial_guesses, dictKeys, or_assoc] using hk

theorem bolo_limit_keys_subset (bs : BoloStrat) (wb : Bool) (t m : List ℚ) (band : List String)
    (k : String) (hk : k ∈ dictKeys (bolo_limits bs wb t m band)) :
    k = "reference_time" ∨ k = "amplitude" ∨ k = "rise_time" ∨ k = "fall_time" := by
  cases bs with
  | sigmoid =>
    have h3 : k = "reference_time" ∨ k = "amplitude" ∨ k = "rise_time" := by
      simpa [bolo_limits, sigmoid_limits, dictKeys, or_assoc] using hk
    tauto
  | bazin =>
    simpa [bolo_limits, bazin_limits, dictKeys, or_assoc] using hk

theorem temp_guess_lookup_none (ts : TempStrat) (t m : List ℚ) (band : List String)
    (k : String)
    (hk : k = "reference_time" ∨ k = "amplitude" ∨ k = "rise_time" ∨ k = "fall_time") :
    (temp_initial_guesses ts t m band).lookup k = none := by
  cases ts <;> rcases hk with rfl | rfl | rfl | rfl <;>
    simp [temp_initial_guesses, constant_initial_guesses, logistic_initial_guesses,
      List.lookup]

theorem temp_limits_lookup_none (ts : TempStrat) (t m : List ℚ) (band : List String)
    (k : String)
    (hk : k = "reference_time" ∨ k = "amplitude" ∨ k = "rise_time" ∨ k = "fall_time") :
    (temp_limits ts t m band).lookup k = none := by
  cases ts <;> rcases hk with rfl | rfl | rfl | rfl <;>
    simp [temp_limits, constant_limits, logistic_limits, List.lookup]

/-- C1: for every bolometric and temperature strategy and every input,
every parameter name carried by the bolometric strategy's guess
dictionary (in particular every name present in both dictionaries) maps,
in the merged dictionary returned by `_initial_guesses`, to the
bolometric strategy's value; likewise for `_limits`. -/
theorem initial_guesses_bolometric_wins (bs : BoloStrat) (ts : TempStrat) (wb : Bool)
    (t m : List ℚ) (band : List String) (k : String) :
    (k ∈ dictKeys (bolo_initial_guesses bs wb t m band) →
      (initial_guesses bs ts wb t m band).lookup k =
        (bolo_initial_guesses bs wb t m band).lookup k) ∧
    (k ∈ dictKeys (bolo_limits bs wb t m band) →
      (limits bs ts wb t m band).lookup k = (bolo_limits bs wb t m band).lookup k) := by
  constructor
  · intro hk
    exact lookup_dictUnion_left _ _ _
      (temp_guess_lookup_none ts t m band k (bolo_keys_subset bs wb t m band k hk))
  · intro hk
    exact lookup_dictUnion_left _ _ _
      (temp_limits_lookup_none ts t m band k (bolo_limit_keys_subset bs wb t m band k hk))

/-- Witness for C1 at a concrete input. -/
theorem initial_guesses_bolometric_wins_witness :
    (initial_guesses .bazin .logistic false [0, 1] [1, 2] ["g", "g"]).lookup "amplitude" =
        (bolo_initial_guesses .bazin false [0, 1] [1, 2] ["g", "g"]).lookup "amplitude" ∧
    (limits .bazin .logistic false [0, 1] [1, 2] ["g", "g"]).lookup "amplitude" =
        (bolo_limits .bazin false [0, 1] [1, 2] ["g", "g"]).lookup "amplitude" :=
  ⟨(initial_guesses_bolometric_wins .bazin .logistic false [0, 1] [1, 2] ["g", "g"]
      "amplitude").1 (by decide),
   (initial_guesses_bolometric_wins .bazin .logistic false [0, 1] [1, 2] ["g", "g"]
      "amplitude").2 (by decide)⟩

/-! ### Parameter-name partition (`RainbowGeneralFit`) -/

/-- `RainbowGeneralFit._common_parameter_names`: the bolometric names
that also appear in the temperature names, in bolometric order. -/
def common_parameter_names (bs : BoloStrat) (ts : TempStrat) : List String :=
  (bolo_parameter_names bs).filter (fun j => decide (j ∈ temp_parameter_names ts))

/-- `RainbowGeneralFit._bolometric_parameter_names`: the bolometric
names not in the common list. -/
def bolometric_parameter_names (bs : BoloStrat) (ts : TempStrat) : List String :=
  (bolo_parameter_names bs).filter (fun i => decide (i ∉ common_parameter_names bs ts))

/-- `RainbowGeneralFit._temperature_parameter_names`: the temperature
names not in the common list. -/
def temperature_parameter_names (bs : BoloStrat) (ts : TempStrat) : List String :=
  (temp_parameter_names ts).filter (fun i => decide (i ∉ common_parameter_names bs ts))

theorem mem_common_parameter_names (bs : BoloStrat) (ts : TempStrat) (x : String) :
    x ∈ common_parameter_names bs ts ↔
      x ∈ bolo_parameter_names bs ∧ x ∈ temp_parameter_names ts := by
  simp [common_parameter_names, List.mem_filter]

theorem mem_bolometric_parameter_names (bs : BoloStrat) (ts : TempStrat) (x : String) :
    x ∈ bolometric_parameter_names bs ts ↔
      x ∈ bolo_parameter_names bs ∧ x ∉ temp_parameter_names ts := by
  simp [bolometric_parameter_names, List.mem_filter, mem_common_parameter_names]
  tauto

theorem mem_temperature_parameter_names (bs : BoloStrat) (ts : TempStrat) (x : String) :
    x ∈ temperature_parameter_names bs ts ↔
      x ∈ temp_parameter_names ts ∧ x ∉ bolo_parameter_names bs := by
  simp [temperature_parameter_names, List.mem_filter, mem_common_parameter_names]
  tauto

/-- C4: for every bolometric and temperature strategy with internally
duplicate-free name lists, the common / bolometric-only /
temperature-only name lists are pairwise disjoint, cover exactly the
union of the two strategies' name sets, the common list holds exactly
the names present in both, each exactly once, in the order the
bolometric strategy declares them (it is a sublist of the bolometric
list). -/
theorem parameter_names_partition (bs : BoloStrat) (ts : TempStrat)
    (hb : (bolo_parameter_names bs).Nodup) (ht : (temp_parameter_names ts).Nodup) :
    (∀ x ∈ common_parameter_names bs ts, x ∉ bolometric_parameter_names bs ts) ∧
    (∀ x ∈ common_parameter_names bs ts, x ∉ temperature_parameter_names bs ts) ∧
    (∀ x ∈ bolometric_parameter_names bs ts, x ∉ temperature_parameter_names bs ts) ∧
    (∀ x, (x ∈ common_parameter_names bs ts ∨ x ∈ bolometric_parameter_names bs ts ∨
        x ∈ temperature_parameter_names bs ts) ↔
      (x ∈ bolo_parameter_names bs ∨ x ∈ temp_parameter_names ts)) ∧
    (∀ x, x ∈ common_parameter_names bs ts ↔
      x ∈ bolo_parameter_names bs ∧ x ∈ temp_parameter_names ts) ∧
    (∀ x ∈ common_parameter_names bs ts, (common_parameter_names bs ts).count x = 1) ∧
    (common_parameter_names bs ts).Sublist (bolo_parameter_names bs) := by
  have _ := ht
  refine ⟨?_, ?_, ?_, ?_, mem_common_parameter_names bs ts, ?_, List.filter_sublist _⟩
  · intro x hx
    rw [mem_common_parameter_names] at hx
    rw [mem_bolometric_parameter_names]
    tauto
  · intro x hx
    rw [mem_common_parameter_names] at hx
    rw [mem_temperature_parameter_names]
    tauto
  · intro x hx
    rw [mem_bolometric_parameter_names] at hx
    rw [mem_temperature_parameter_names]
    tauto
  · intro x
    rw [mem_common_parameter_names, mem_bolometric_parameter_names,
      mem_temperature_parameter_names]
    tauto
  · intro x hx
    exact List.count_eq_one_of_mem (hb.filter _) hx

/-- Witness for C4 at the bazin and logistic strategies. -/
theorem parameter_names_partition_witness :
    (∀ x ∈ common_parameter_names .bazin .logistic,
      x ∉ bolometric_parameter_names .bazin .logistic) ∧
    (∀ x ∈ common_parameter_names .bazin .logistic,
      x ∉ temperature_parameter_names .bazin .logistic) ∧
    (∀ x ∈ bolometric_parameter_names .bazin .logistic,
      x ∉ temperature_parameter_names .bazin .logistic) ∧
    (∀ x, (x ∈ common_parameter_names .bazin .logistic ∨
        x ∈ bolometric_parameter_names .bazin .logistic ∨
        x ∈ temperature_parameter_names .bazin .logistic) ↔
      (x ∈ bolo_parameter_names .bazin ∨ x ∈ temp_parameter_names .logistic)) ∧
    (∀ x, x ∈ common_parameter_names .bazin .logistic ↔
      x ∈ bolo_parameter_names .bazin ∧ x ∈ temp_parameter_names .logistic) ∧
    (∀ x ∈ common_parameter_names .bazin .logistic,
      (common_parameter_names .bazin .logistic).count x = 1) ∧
    (common_parameter_names .bazin .logistic).Sublist (bolo_parameter_names .bazin) :=
  parameter_names_partition .bazin .logistic (by decide) (by decide)

/-! ### Parameter registry and peak time

The index map `self.p` lives in `_base.py`, which is not among the
sources; it is modelled from the spec. -/

/-- Modelled from the spec: per-band baseline parameter names are
"generated ... one per band, ... named deterministically from the band
identifier" (`BaseRainbowFit.p.baseline_parameter_name`, `_base.py` is
not among the sources). -/
def baseline_parameter_name (b : String) : String := "baseline_" ++ b

/-- Modelled from the spec: the ordered parameter-name sequence of the
registry `self.p` (`_base.py` is not among the sources): "(a) parameters
common to both strategies ...; (b) bolometric-only parameters; (c)
temperature-only parameters; (d) one baseline offset parameter per band
(only if baseline mode enabled)". -/
def all_parameter_names (bs : BoloStrat) (ts : TempStrat) (bands : List String)
    (with_baseline : Bool) : List String :=
  common_parameter_names bs ts ++ bolometric_parameter_names bs ts ++
    temperature_parameter_names bs ts ++
      (if with_baseline then bands.map baseline_parameter_name else [])

/-- Modelled from the spec: `self.p.reference_time`, the position of the
name `"reference_time"` in the registry's ordered name sequence. -/
def reference_time_index (bs : BoloStrat) (ts : TempStrat) (bands : List String)
    (with_baseline : Bool) : Nat :=
  (all_parameter_names bs ts bands with_baseline).indexOf "reference_time"

/-- `RainbowGeneralFit.peak_time`: returns `params[self.p.reference_time]`. -/
def peak_time (bs : BoloStrat) (ts : TempStrat) (bands : List String)
    (with_baseline : Bool) (params : List ℚ) : ℚ :=
  params.getD (reference_time_index bs ts bands with_baseline) 0

theorem all_parameter_names_head (bs : BoloStrat) (ts : TempStrat) (bands : List String)
    (wb : Bool) : ∃ rest, all_parameter_names bs ts bands wb = "reference_time" :: rest := by
  cases bs <;> cases ts <;>
    exact ⟨_, rfl⟩

theorem reference_time_index_eq_zero (bs : BoloStrat) (ts : TempStrat)
    (bands : List String) (wb : Bool) : reference_time_index bs ts bands wb = 0 := by
  obtain ⟨rest, hrest⟩ := all_parameter_names_head bs ts bands wb
  rw [reference_time_index, hrest]
  simp [List.indexOf_cons]

/-- C3: for every strategy configuration, `peak_time` returns exactly
the entry of the parameter vector at the reference-time index,
independently of the bolometric functional form and of every other
parameter value: two vectors agreeing at that index give the same peak
time under any two configurations. -/
theorem peak_time_eq_reference_time (bs bs' : BoloStrat) (ts ts' : TempStrat)
    (bands bands' : List String) (wb wb' : Bool) (params params' : List ℚ)
    (h : params'.getD (reference_time_index bs' ts' bands' wb') 0 =
      params.getD (reference_time_index bs ts bands wb) 0) :
    peak_time bs ts bands wb params =
      params.getD (reference_time_index bs ts bands wb) 0 ∧
    reference_time_index bs ts bands wb = 0 ∧
    peak_time bs' ts' bands' wb' params' = peak_time bs ts bands wb params := by
  exact ⟨rfl, reference_time_index_eq_zero bs ts bands wb, h⟩

/-- Witness for C3 at a concrete configuration and parameter vectors. -/
theorem peak_time_eq_reference_time_witness :
    peak_time .bazin .logistic ["g"] true [60000, 1, 5, 30, 5000, 15000, 4, 7] =
      ([60000, 1, 5, 30, 5000, 15000, 4, 7] : List ℚ).getD
        (reference_time_index .bazin .logistic ["g"] true) 0 ∧
    reference_time_index .bazin .logistic ["g"] true = 0 ∧
    peak_time .sigmoid .constant [] false [60000, 2, 3] =
      peak_time .bazin .logistic ["g"] true [60000, 1, 5, 30, 5000, 15000, 4, 7] :=
  peak_time_eq_reference_time .bazin .sigmoid .logistic .constant ["g"] [] true false
    [60000, 1, 5, 30, 5000, 15000, 4, 7] [60000, 2, 3] (by decide)

/-! ### Parameter unscaling (`_unscale_parameters`, `_normalize_bolometric_flux`)

Parameter vectors are modelled as functions from indices to values; the
registry's `hasattr(self.p, name)` checks are modelled by optional
indices. The `Scaler` / `MultiBandScaler` classes live in `_scaler.py`,
which is not among the sources; their undo transforms are modelled from
the spec. -/

/-- The optional indices the unscaling code reads off the registry
`self.p` via `hasattr`. -/
structure ParamIndexMap where
  reference_time : Option Nat
  rise_time : Option Nat
  fall_time : Option Nat
  k_sig : Option Nat
  amplitude : Option Nat

/-- Modelled from the spec: the time scaler of `_scaler.py` carries a
shift and a scale ("time shift = minimum of t; time scale = max − min"). -/
structure TScaler where
  shift : ℚ
  scale : ℚ

/-- Modelled from the spec: `Scaler.undo_shift_scale`, the inverse
transform of a reference-time parameter, `shift + scale*x`. -/
def TScaler.undo_shift_scale (s : TScaler) (x : ℚ) : ℚ := s.shift + s.scale * x

/-- Modelled from the spec: `Scaler.undo_scale`, the inverse transform
of a time-scale parameter, `scale*x`. -/
def TScaler.undo_scale (s : TScaler) (x : ℚ) : ℚ := s.scale * x

/-- Modelled from the spec: the flux scaler of `_scaler.py` carries a
flux scale. -/
structure MScaler where
  scale : ℚ

/-- Modelled from the spec: `MultiBandScaler.undo_scale`, the inverse
transform of a flux-like parameter, `flux_scale*x`. -/
def MScaler.undo_scale (s : MScaler) (x : ℚ) : ℚ := s.scale * x

/-- In-place update `params[idx] = f(params[idx])`, skipped when the
registry has no such parameter (`hasattr` false). -/
def updateAt (idx : Option Nat) (f : ℚ → ℚ) (p : Nat → ℚ) : Nat → ℚ :=
  match idx with
  | none => p
  | some i => Function.update p i (f (p i))

/-- `RainbowGeneralFit._normalize_bolometric_flux`: divides the
amplitude entry by the average frequency. -/
def normalize_bolometric_flux (pm : ParamIndexMap) (average_nu : ℚ) (p : Nat → ℚ) :
    Nat → ℚ :=
  updateAt pm.amplitude (· / average_nu) p

/-- `RainbowGeneralFit._denormalize_bolometric_flux`: multiplies the
amplitude entry by the average frequency. -/
def denormalize_bolometric_flux (pm : ParamIndexMap) (average_nu : ℚ) (p : Nat → ℚ) :
    Nat → ℚ :=
  updateAt pm.amplitude (· * average_nu) p

/-- `RainbowGeneralFit._unscale_parameters`: denormalizes the amplitude,
then unscales reference time, rise time, fall time, `k_sig` and
amplitude, in the order of the source. -/
def unscale_parameters (pm : ParamIndexMap) (average_nu : ℚ) (ts : TScaler) (ms : MScaler)
    (p : Nat → ℚ) : Nat → ℚ :=
  updateAt pm.amplitude ms.undo_scale
    (updateAt pm.k_sig ts.undo_scale
      (updateAt pm.fall_time ts.undo_scale
        (updateAt pm.rise_time ts.undo_scale
          (updateAt pm.reference_time ts.undo_shift_scale
            (denormalize_bolometric_flux pm average_nu p)))))

theorem updateAt_noteq (idx : Option Nat) (f : ℚ → ℚ) (p : Nat → ℚ) (i : Nat)
    (h : idx ≠ some i) : updateAt idx f p i = p i := by
  match idx with
  | none => rfl
  | some j =>
    have hji : i ≠ j := fun hij => h (by rw [hij])
    exact Function.update_noteq hji _ _

/-- C6: `_unscale_parameters` changes at most the entries at the indices
of the parameters named reference_time, rise_time, fall_time, k_sig and
amplitude; every entry at any other index is left unchanged. -/
theorem unscale_parameters_frame (pm : ParamIndexMap) (average_nu : ℚ) (ts : TScaler)
    (ms : MScaler) (p : Nat → ℚ) (i : Nat)
    (h1 : pm.reference_time ≠ some i) (h2 : pm.rise_time ≠ some i)
    (h3 : pm.fall_time ≠ some i) (h4 : pm.k_sig ≠ some i)
    (h5 : pm.amplitude ≠ some i) :
    unscale_parameters pm average_nu ts ms p i = p i := by
  unfold unscale_parameters denormalize_bolometric_flux
  rw [updateAt_noteq _ _ _ _ h5, updateAt_noteq _ _ _ _ h4, updateAt_noteq _ _ _ _ h3,
    updateAt_noteq _ _ _ _ h2, updateAt_noteq _ _ _ _ h1, updateAt_noteq _ _ _ _ h5]

/-- Witness for C6 at a concrete registry, scalers and vector. -/
theorem unscale_parameters_frame_witness :
    unscale_parameters ⟨some 0, some 2, some 3, some 5, some 1⟩ 10 ⟨1, 2⟩ ⟨3⟩
      (fun n => (n : ℚ)) 4 = (4 : ℚ) :=
  unscale_parameters_frame ⟨some 0, some 2, some 3, some 5, some 1⟩ 10 ⟨1, 2⟩ ⟨3⟩
    (fun n => (n : ℚ)) 4 (by decide) (by decide) (by decide) (by decide) (by decide)

/-- C7: with an amplitude parameter present and a nonzero average
frequency, `_normalize_bolometric_flux` followed by
`_denormalize_bolometric_flux` restores every entry of the parameter
vector exactly, and each of the two operations changes only the
amplitude entry. -/
theorem normalize_denormalize_roundtrip (pm : ParamIndexMap) (average_nu : ℚ) (a : Nat)
    (p : Nat → ℚ) (ha : pm.amplitude = some a) (hnu : average_nu ≠ 0) :
    (∀ i, denormalize_bolometric_flux pm average_nu
      (normalize_bolometric_flux pm average_nu p) i = p i) ∧
    (∀ i, pm.amplitude ≠ some i → normalize_bolometric_flux pm average_nu p i = p i) ∧
    (∀ i, pm.amplitude ≠ some i → denormalize_bolometric_flux pm average_nu p i = p i) := by
  refine ⟨?_, ?_, ?_⟩
  · intro i
    by_cases hi : i = a
    · subst hi
      simp [denormalize_bolometric_flux, normalize_bolometric_flux, updateAt, ha,
        Function.update_same, div_mul_cancel₀ _ hnu]
    · have hne : pm.amplitude ≠ some i := by
        rw [ha]
        intro h
        exact hi (Option.some.inj h).symm
      simp only [denormalize_bolometric_flux, normalize_bolometric_flux]
      rw [updateAt_noteq _ _ _ _ hne, updateAt_noteq _ _ _ _ hne]
  · intro i hi
    exact updateAt_noteq _ _ _ _ hi
  · intro i hi
    exact updateAt_noteq _ _ _ _ hi

/-- Witness for C7 at a concrete registry and vector. -/
theorem normalize_denormalize_roundtrip_witness :
    (∀ i, denormalize_bolometric_flux ⟨some 0, none, none, none, some 1⟩ 10
      (normalize_bolometric_flux ⟨some 0, none, none, none, some 1⟩ 10
        (fun n => (n : ℚ) + 1)) i = (fun n => (n : ℚ) + 1) i) ∧
    (∀ i, ParamIndexMap.amplitude ⟨some 0, none, none, none, some 1⟩ ≠ some i →
      normalize_bolometric_flux ⟨some 0, none, none, none, some 1⟩ 10
        (fun n => (n : ℚ) + 1) i = (fun n => (n : ℚ) + 1) i) ∧
    (∀ i, ParamIndexMap.amplitude ⟨some 0, none, none, none, some 1⟩ ≠ some i →
      denormalize_bolometric_flux ⟨some 0, none, none, none, some 1⟩ 10
        (fun n => (n : ℚ) + 1) i = (fun n => (n : ℚ) + 1) i) :=
  normalize_denormalize_roundtrip ⟨some 0, none, none, none, some 1⟩ 10 1
    (fun n => (n : ℚ) + 1) rfl (by norm_num)

/-! ### Baseline initial guesses (`_baseline_initial_guesses`) -/

/-- Insert a value into a sorted list, keeping it sorted. -/
def insertSorted (x : ℚ) : List ℚ → List ℚ
  | [] => [x]
  | y :: ys => if x ≤ y then x :: y :: ys else y :: insertSorted x ys

/-- Ascending insertion sort, modelling the sort inside `np.median`. -/
def sortAsc (l : List ℚ) : List ℚ := l.foldr insertSorted []

/-- `np.median` of a 1-d array: middle element of the sorted array, or
the mean of the two middle elements for even length (0 on the empty
array, which numpy rejects). -/
def npMedian (l : List ℚ) : ℚ :=
  let s := sortAsc l
  if s.length % 2 = 1 then s.getD (s.length / 2) 0
  else (s.getD (s.length / 2 - 1) 0 + s.getD (s.length / 2) 0) / 2

/-- Boolean-mask selection `m[band == b]`: the flux values whose
position carries band `b`. -/
def maskSelect (m : List ℚ) (band : List String) (b : String) : List ℚ :=
  ((m.zip band).filter (fun p => p.2 == b)).map Prod.fst

/-- `RainbowGeneralFit._baseline_initial_guesses`: one entry per
configured band, keyed by the band's baseline parameter name, holding
the median flux over the observations of that band. -/
def baseline_initial_guesses (bands : List String) (_t m : List ℚ) (band : List String) :
    List (String × ℚ) :=
  bands.map (fun b => (baseline_parameter_name b, npMedian (maskSelect m band b)))

/-- The flux values at exactly the observation positions whose band
equals `b`, stated by index. -/
def fluxAtBand (m : List ℚ) (band : List String) (b : String) : List ℚ :=
  (List.range m.length).filterMap
    (fun i => if band.getD i "" = b then some (m.getD i 0) else none)

theorem maskSelect_eq_fluxAtBand :
    ∀ (m : List ℚ) (band : List String) (b : String), m.length = band.length →
      maskSelect m band b = fluxAtBand m band b
  | [], _, b, _ => by simp [maskSelect, fluxAtBand]
  | x :: xs, [], b, hlen => by simp at hlen
  | x :: xs, y :: ys, b, hlen => by
    have hlen' : xs.length = ys.length := by simpa using hlen
    have ih := maskSelect_eq_fluxAtBand xs ys b hlen'
    have hrange : List.range (xs.length + 1) = 0 :: (List.range xs.length).map Nat.succ :=
      List.range_succ_eq_map xs.length
    by_cases hy : y = b
    · simp [maskSelect, fluxAtBand, hrange, List.filterMap_map, Function.comp_def, hy,
        List.filter_cons, List.filterMap_cons, List.getElem?_cons_succ] at ih ⊢
      exact ih
    · simp [maskSelect, fluxAtBand, hrange, List.filterMap_map, Function.comp_def, hy,
        beq_false_of_ne hy, List.filter_cons, List.filterMap_cons,
        List.getElem?_cons_succ] at ih ⊢
      exact ih

theorem baseline_parameter_name_inj (a b : String)
    (h : baseline_parameter_name a = baseline_parameter_name b) : a = b := by
  have hd := congrArg String.data h
  simp [baseline_parameter_name, String.data] at hd
  exact String.ext hd

theorem lookup_map_keyfun {α : Type} (f : String → String) (g : String → α)
    (l : List String) (b : String) (hb : b ∈ l)
    (hf : ∀ x y, f x = f y → x = y) :
    (l.map (fun x => (f x, g x))).lookup (f b) = some (g b) := by
  induction l with
  | nil => simp at hb
  | cons a l ih =>
    by_cases hab : f b = f a
    · have hba : b = a := hf _ _ hab
      subst hba
      simp [List.lookup]
    · have hbl : b ∈ l := by
        rcases List.mem_cons.mp hb with rfl | hbl
        · exact absurd rfl hab
        · exact hbl
      simp [List.lookup, beq_false_of_ne hab, ih hbl]

/-- C8: for every configured band `b`, the baseline initial-guess
dictionary holds, under `b`'s baseline parameter name, exactly the
median of the flux values at the observations whose band equals `b`. -/
theorem baseline_initial_guesses_median (bands : List String) (t m : List ℚ)
    (band : List String) (hlen : m.length = band.length) (b : String) (hb : b ∈ bands) :
    (baseline_parameter_name b, npMedian (fluxAtBand m band b)) ∈
        baseline_initial_guesses bands t m band ∧
    (baseline_initial_guesses bands t m band).lookup (baseline_parameter_name b) =
        some (npMedian (fluxAtBand m band b)) := by
  constructor
  · rw [← maskSelect_eq_fluxAtBand m band b hlen]
    exact List.mem_map.mpr ⟨b, hb, rfl⟩
  · rw [← maskSelect_eq_fluxAtBand m band b hlen]
    exact lookup_map_keyfun baseline_parameter_name
      (fun x => npMedian (maskSelect m band x)) bands b hb baseline_parameter_name_inj

/-- Witness for C8 at a concrete multi-band input. -/
theorem baseline_initial_guesses_median_witness :
    (baseline_parameter_name "g",
        npMedian (fluxAtBand [1, 5, 3] ["g", "r", "g"] "g")) ∈
      baseline_initial_guesses ["g", "r"] [0, 1, 2] [1, 5, 3] ["g", "r", "g"] ∧
    (baseline_initial_guesses ["g", "r"] [0, 1, 2] [1, 5, 3] ["g", "r", "g"]).lookup
        (baseline_parameter_name "g") =
      some (npMedian (fluxAtBand [1, 5, 3] ["g", "r", "g"] "g")) :=
  baseline_initial_guesses_median ["g", "r"] [0, 1, 2] [1, 5, 3] ["g", "r", "g"]
    (by decide) "g" (by decide)

/-! ### Bazin initial guesses lie within the bazin limits -/

/-- C10: on a non-empty input with time spread above 0.01 and positive
flux amplitude (max for no-baseline mode, peak-to-peak for baseline
mode), each of the four bazin initial guesses lies strictly inside the
corresponding interval of the bazin limits. -/
theorem bazin_guesses_within_limits (baseline : Bool) (t m : List ℚ) (band : List String)
    (hm : m ≠ []) (hlen : t.length = m.length) (hpt : 1 / 100 < npPtp t)
    (hA : 0 < if baseline then npPtp m else npMax m) :
    ∀ name ∈ (["reference_time", "amplitude", "rise_time", "fall_time"] : List String),
      ∃ g lo hi, (bazin_initial_guesses baseline t m band).lookup name = some g ∧
        (bazin_limits baseline t m band).lookup name = some (lo, hi) ∧
        lo < g ∧ g < hi := by
  intro name hname
  have hmmax : npMax m ∈ m := npMax_mem hm
  have hidx : npArgmax m < m.length := List.indexOf_lt_length.mpr hmmax
  have hidx' : npArgmax m < t.length := by rw [hlen]; exact hidx
  have hgmem : t.getD (npArgmax m) 0 ∈ t := by
    rw [List.getD_eq_getElem t 0 hidx']
    exact List.getElem_mem hidx'
  have h1 : npMin t ≤ t.getD (npArgmax m) 0 := npMin_le hgmem
  have h2 : t.getD (npArgmax m) 0 ≤ npMax t := le_npMax hgmem
  simp only [List.mem_cons, List.not_mem_nil, or_false] at hname
  rcases hname with rfl | rfl | rfl | rfl
  · refine ⟨t.getD (npArgmax m) 0, npMin t - 10 * npPtp t, npMax t + 10 * npPtp t,
      ?_, ?_, by linarith, by linarith⟩ <;>
      simp [bazin_initial_guesses, bazin_limits, List.lookup]
  · refine ⟨if baseline then npPtp m else npMax m, 0,
      10 * (if baseline then npPtp m else npMax m), ?_, ?_, hA, by linarith⟩ <;>
      simp [bazin_initial_guesses, bazin_limits, List.lookup]
  · refine ⟨1 / 10, 1 / 10000, 10 * npPtp t, ?_, ?_, by norm_num, by linarith⟩ <;>
      simp [bazin_initial_guesses, bazin_limits, List.lookup]
  · refine ⟨1 / 10, 1 / 10000, 10 * npPtp t, ?_, ?_, by norm_num, by linarith⟩ <;>
      simp [bazin_initial_guesses, bazin_limits, List.lookup]

/-- Witness for C10 at a concrete input and the rise-time parameter. -/
theorem bazin_guesses_within_limits_witness :
    ∃ g lo hi, (bazin_initial_guesses false [0, 1] [1, 2] ["g", "g"]).lookup "rise_time" =
        some g ∧
      (bazin_limits false [0, 1] [1, 2] ["g", "g"]).lookup "rise_time" = some (lo, hi) ∧
      lo < g ∧ g < hi :=
  bazin_guesses_within_limits false [0, 1] [1, 2] ["g", "g"] (by decide) (by decide)
    (by norm_num [npPtp, npMax, npMin, max_def, min_def])
    (by norm_num [npMax, max_def]) "rise_time" (by decide)

/-! ### Guarded exponential model functions (bolometric.py, temperature.py)

The numpy-vectorized model functions act elementwise; they are modelled
per scalar over the reals. Index masks that assign disjoint regions are
modelled by conditionals, with later numpy writes taking precedence. -/

/-- `sigmoid` from bolometric.py: zero outside `dt > -100*rise_time`,
the logistic flux elsewhere. -/
noncomputable def sigmoid (t t0 amplitude rise_time : ℝ) : ℝ :=
  if -100 * rise_time < t - t0 then
    amplitude / (Real.exp (-(t - t0) / rise_time) + 1)
  else 0

/-- `bazin` from bolometric.py: zero outside
`-100*rise_time < dt < 100*fall_time`, the two-exponential flux
elsewhere. -/
noncomputable def bazin (t t0 amplitude rise_time fall_time : ℝ) : ℝ :=
  if -100 * rise_time < t - t0 ∧ t - t0 < 100 * fall_time then
    amplitude / (Real.exp (-(t - t0) / rise_time) + Real.exp ((t - t0) / fall_time))
  else 0

/-- `logistic` from temperature.py: `Tmin` on `dt <= -100*k_sig`, the
logistic interpolation strictly between, and `Tmax` on
`dt >= 100*k_sig` (the numpy write to the `dt >= 100*k_sig` mask is the
last one, so it wins on any overlap). -/
noncomputable def logistic (t t0 Tmin Tmax k_sig : ℝ) : ℝ :=
  if 100 * k_sig ≤ t - t0 then Tmax
  else if -100 * k_sig < t - t0 ∧ t - t0 < 100 * k_sig then
    Tmin + (Tmax - Tmin) / (1 + Real.exp ((t - t0) / k_sig))
  else if t - t0 ≤ -100 * k_sig then Tmin
  else 0

theorem tendsto_shift_atBot (t0 : ℝ) : Filter.Tendsto (fun t : ℝ => t - t0)
    Filter.atBot Filter.atBot := by
  simpa [sub_eq_add_neg] using
    Filter.tendsto_atBot_add_const_right Filter.atBot (-t0) Filter.tendsto_id

theorem tendsto_shift_atTop (t0 : ℝ) : Filter.Tendsto (fun t : ℝ => t - t0)
    Filter.atTop Filter.atTop := by
  simpa [sub_eq_add_neg] using
    Filter.tendsto_atTop_add_const_right Filter.atTop (-t0) Filter.tendsto_id

theorem tendsto_rise_exp_atBot (t0 rise_time : ℝ) (hr : 0 < rise_time) :
    Filter.Tendsto (fun t : ℝ => Real.exp (-(t - t0) / rise_time))
      Filter.atBot Filter.atTop := by
  refine Real.tendsto_exp_atTop.comp ?_
  exact Filter.Tendsto.atTop_div_const hr
    (Filter.tendsto_neg_atBot_atTop.comp (tendsto_shift_atBot t0))

theorem tendsto_fall_exp_atTop (t0 fall_time : ℝ) (hf : 0 < fall_time) :
    Filter.Tendsto (fun t : ℝ => Real.exp ((t - t0) / fall_time))
      Filter.atTop Filter.atTop := by
  refine Real.tendsto_exp_atTop.comp ?_
  exact Filter.Tendsto.atTop_div_const hf (tendsto_shift_atTop t0)

/-- C5: with positive timescales, `sigmoid` and `bazin` return zero on
their guarded regions and the exponential formula elsewhere; zero is the
correct asymptotic value of the formula there (it tends to zero toward
the guarded infinities), and on the whole guarded region the formula
stays within `|amplitude|·exp(-100)` of the substituted zero, so each
function is continuous within floating tolerance across its guard
boundary. -/
theorem sigmoid_bazin_guards (t0 amplitude rise_time fall_time : ℝ)
    (hr : 0 < rise_time) (hf : 0 < fall_time) :
    (∀ t, t - t0 ≤ -100 * rise_time → sigmoid t t0 amplitude rise_time = 0) ∧
    (∀ t, -100 * rise_time < t - t0 →
      sigmoid t t0 amplitude rise_time =
        amplitude / (Real.exp (-(t - t0) / rise_time) + 1)) ∧
    Filter.Tendsto (fun t => amplitude / (Real.exp (-(t - t0) / rise_time) + 1))
      Filter.atBot (nhds 0) ∧
    (∀ t, t - t0 ≤ -100 * rise_time →
      |sigmoid t t0 amplitude rise_time -
        amplitude / (Real.exp (-(t - t0) / rise_time) + 1)| ≤
        |amplitude| * Real.exp (-100)) ∧
    (∀ t, t - t0 ≤ -100 * rise_time ∨ 100 * fall_time ≤ t - t0 →
      bazin t t0 amplitude rise_time fall_time = 0) ∧
    (∀ t, -100 * rise_time < t - t0 → t - t0 < 100 * fall_time →
      bazin t t0 amplitude rise_time fall_time =
        amplitude / (Real.exp (-(t - t0) / rise_time) + Real.exp ((t - t0) / fall_time))) ∧
    Filter.Tendsto
      (fun t => amplitude /
        (Real.exp (-(t - t0) / rise_time) + Real.exp ((t - t0) / fall_time)))
      Filter.atBot (nhds 0) ∧
    Filter.Tendsto
      (fun t => amplitude /
        (Real.exp (-(t - t0) / rise_time) + Real.exp ((t - t0) / fall_time)))
      Filter.atTop (nhds 0) ∧
    (∀ t, t - t0 ≤ -100 * rise_time ∨ 100 * fall_time ≤ t - t0 →
      |bazin t t0 amplitude rise_time fall_time -
        amplitude / (Real.exp (-(t - t0) / rise_time) + Real.exp ((t - t0) / fall_time))| ≤
        |amplitude| * Real.exp (-100)) := by
  have hrise100 : ∀ t : ℝ, t - t0 ≤ -100 * rise_time →
      Real.exp 100 ≤ Real.exp (-(t - t0) / rise_time) := by
    intro t h
    exact Real.exp_le_exp.mpr ((le_div_iff₀ hr).mpr (by linarith))
  have hfall100 : ∀ t : ℝ, 100 * fall_time ≤ t - t0 →
      Real.exp 100 ≤ Real.exp ((t - t0) / fall_time) := by
    intro t h
    exact Real.exp_le_exp.mpr ((le_div_iff₀ hf).mpr (by linarith))
  refine ⟨?_, ?_, ?_, ?_, ?_, ?_, ?_, ?_, ?_⟩
  · intro t h
    exact if_neg (not_lt.mpr h)
  · intro t h
    exact if_pos h
  · exact Filter.Tendsto.div_atTop tendsto_const_nhds
      (Filter.tendsto_atTop_add_const_right _ 1 (tendsto_rise_exp_atBot t0 rise_time hr))
  · intro t h
    rw [show sigmoid t t0 amplitude rise_time = 0 from if_neg (not_lt.mpr h), zero_sub,
      abs_neg, abs_div,
      abs_of_pos (by positivity : (0:ℝ) < Real.exp (-(t - t0) / rise_time) + 1),
      Real.exp_neg, ← div_eq_mul_inv]
    have h100 := hrise100 t h
    gcongr
    linarith
  · intro t h
    refine if_neg ?_
    rcases h with h | h
    · exact fun hc => absurd hc.1 (not_lt.mpr h)
    · exact fun hc => absurd hc.2 (not_lt.mpr h)
  · intro t h1 h2
    exact if_pos ⟨h1, h2⟩
  · refine Filter.Tendsto.div_atTop tendsto_const_nhds ?_
    refine Filter.tendsto_atTop_mono (fun t => ?_) (tendsto_rise_exp_atBot t0 rise_time hr)
    exact le_add_of_nonneg_right (Real.exp_nonneg _)
  · refine Filter.Tendsto.div_atTop tendsto_const_nhds ?_
    refine Filter.tendsto_atTop_mono (fun t => ?_) (tendsto_fall_exp_atTop t0 fall_time hf)
    exact le_add_of_nonneg_left (Real.exp_nonneg _)
  · intro t h
    have hzero : bazin t t0 amplitude rise_time fall_time = 0 := by
      refine if_neg ?_
      rcases h with h | h
      · exact fun hc => absurd hc.1 (not_lt.mpr h)
      · exact fun hc => absurd hc.2 (not_lt.mpr h)
    have hDpos : (0:ℝ) <
        Real.exp (-(t - t0) / rise_time) + Real.exp ((t - t0) / fall_time) := by
      positivity
    have hD100 : Real.exp 100 ≤
        Real.exp (-(t - t0) / rise_time) + Real.exp ((t - t0) / fall_time) := by
      rcases h with h | h
      · have := hrise100 t h
        have := Real.exp_pos ((t - t0) / fall_time)
        linarith
      · have := hfall100 t h
        have := Real.exp_pos (-(t - t0) / rise_time)
        linarith
    rw [hzero, zero_sub, abs_neg, abs_div, abs_of_pos hDpos, Real.exp_neg,
      ← div_eq_mul_inv]
    gcongr

/-- Witness for C5 at concrete parameters. -/
theorem sigmoid_bazin_guards_witness :
    (∀ t, t - 0 ≤ -100 * 1 → sigmoid t 0 1 1 = 0) ∧
    (∀ t, -100 * 1 < t - 0 →
      sigmoid t 0 1 1 = 1 / (Real.exp (-(t - 0) / 1) + 1)) ∧
    Filter.Tendsto (fun t => 1 / (Real.exp (-(t - 0) / 1) + 1))
      Filter.atBot (nhds 0) ∧
    (∀ t, t - 0 ≤ -100 * 1 →
      |sigmoid t 0 1 1 - 1 / (Real.exp (-(t - 0) / 1) + 1)| ≤
        |(1:ℝ)| * Real.exp (-100)) ∧
    (∀ t, t - 0 ≤ -100 * 1 ∨ 100 * 1 ≤ t - 0 → bazin t 0 1 1 1 = 0) ∧
    (∀ t, -100 * 1 < t - 0 → t - 0 < 100 * 1 →
      bazin t 0 1 1 1 = 1 / (Real.exp (-(t - 0) / 1) + Real.exp ((t - 0) / 1))) ∧
    Filter.Tendsto (fun t => 1 / (Real.exp (-(t - 0) / 1) + Real.exp ((t - 0) / 1)))
      Filter.atBot (nhds 0) ∧
    Filter.Tendsto (fun t => 1 / (Real.exp (-(t - 0) / 1) + Real.exp ((t - 0) / 1)))
      Filter.atTop (nhds 0) ∧
    (∀ t, t - 0 ≤ -100 * 1 ∨ 100 * 1 ≤ t - 0 →
      |bazin t 0 1 1 1 - 1 / (Real.exp (-(t - 0) / 1) + Real.exp ((t - 0) / 1))| ≤
        |(1:ℝ)| * Real.exp (-100)) :=
  sigmoid_bazin_guards 0 1 1 1 (by norm_num) (by norm_num)

/-- C2 (code bug): on the guarded region `dt <= -100*k_sig` the code
substitutes `Tmin`, but the exponential expression
`Tmin + (Tmax - Tmin)/(1 + exp(dt/k_sig))` tends to `Tmax` toward that
side, and already at the guard boundary `dt = -100*k_sig` it exceeds
7000 while the substituted value is 4000 (with `Tmin = 4000`,
`Tmax = 10000`, `k_sig = 1`): the substituted values are the asymptotes
of the opposite sides, a discontinuity of nearly `|Tmax - Tmin|`. -/
theorem logistic_guard_wrong_asymptote :
    logistic (-100) 0 4000 10000 1 = 4000 ∧
    Filter.Tendsto (fun dt : ℝ => 4000 + (10000 - 4000) / (1 + Real.exp (dt / 1)))
      Filter.atBot (nhds 10000) ∧
    7000 < 4000 + (10000 - 4000) / (1 + Real.exp ((-100 : ℝ) / 1)) := by
  refine ⟨?_, ?_, ?_⟩
  · norm_num [logistic]
  · have hexp : Filter.Tendsto (fun dt : ℝ => Real.exp (dt / 1))
        Filter.atBot (nhds 0) := by
      simpa [div_one] using Real.tendsto_exp_atBot
    have hden : Filter.Tendsto (fun dt : ℝ => 1 + Real.exp (dt / 1))
        Filter.atBot (nhds 1) := by
      simpa using hexp.const_add 1
    have hfrac : Filter.Tendsto
        (fun dt : ℝ => (10000 - 4000 : ℝ) / (1 + Real.exp (dt / 1)))
        Filter.atBot (nhds ((10000 - 4000) / 1)) :=
      tendsto_const_nhds.div hden (by norm_num)
    have h4 := hfrac.const_add (4000 : ℝ)
    norm_num at h4 ⊢
    exact h4
  · have he : Real.exp ((-100 : ℝ) / 1) < 1 := by
      rw [Real.exp_lt_one_iff]
      norm_num
    have hpos : (0:ℝ) < 1 + Real.exp ((-100 : ℝ) / 1) := by positivity
    have h2 : (3000:ℝ) * (1 + Real.exp ((-100 : ℝ) / 1)) < 6000 := by nlinarith
    have h3 : (3000:ℝ) < 6000 / (1 + Real.exp ((-100 : ℝ) / 1)) :=
      (lt_div_iff₀ hpos).mpr h2
    linarith

/-- C9: with `k_sig > 0`, every element the logistic temperature
function returns lies in the closed interval between `Tmin` and
`Tmax`. -/
theorem logistic_range (ts : List ℝ) (t0 Tmin Tmax k_sig : ℝ) (hk : 0 < k_sig) :
    ∀ x ∈ ts.map (fun t => logistic t t0 Tmin Tmax k_sig),
      min Tmin Tmax ≤ x ∧ x ≤ max Tmin Tmax := by
  intro x hx
  rcases List.mem_map.mp hx with ⟨t, _, rfl⟩
  unfold logistic
  split_ifs with h1 h2 h3
  · exact ⟨min_le_right _ _, le_max_right _ _⟩
  · have hE : 0 < Real.exp ((t - t0) / k_sig) := Real.exp_pos _
    have hD : (1:ℝ) < 1 + Real.exp ((t - t0) / k_sig) := by linarith
    have hDpos : (0:ℝ) < 1 + Real.exp ((t - t0) / k_sig) := by linarith
    rcases le_total Tmin Tmax with hTT | hTT
    · have hq0 : 0 ≤ (Tmax - Tmin) / (1 + Real.exp ((t - t0) / k_sig)) :=
        div_nonneg (by linarith) hDpos.le
      have hq1 : (Tmax - Tmin) / (1 + Real.exp ((t - t0) / k_sig)) ≤ Tmax - Tmin :=
        div_le_self (by linarith) (by linarith)
      rw [min_eq_left hTT, max_eq_right hTT]
      constructor <;> linarith
    · have hc : 0 ≤ Tmin - Tmax := by linarith
      have hcd : (Tmin - Tmax) / (1 + Real.exp ((t - t0) / k_sig)) ≤ Tmin - Tmax :=
        div_le_self hc (by linarith)
      have hcd0 : 0 ≤ (Tmin - Tmax) / (1 + Real.exp ((t - t0) / k_sig)) :=
        div_nonneg hc hDpos.le
      have hneg : (Tmax - Tmin) / (1 + Real.exp ((t - t0) / k_sig)) =
          -((Tmin - Tmax) / (1 + Real.exp ((t - t0) / k_sig))) := by
        rw [← neg_div]
        ring_nf
      rw [min_eq_right hTT, max_eq_left hTT, hneg]
      constructor <;> linarith
  · exact ⟨min_le_left _ _, le_max_left _ _⟩
  · exfalso
    exact h2 ⟨not_le.mp h3, not_le.mp h1⟩

/-- Witness for C9 at concrete parameters. -/
theorem logistic_range_witness :
    (0:ℝ) < 1 ∧ ∀ x ∈ ([0] : List ℝ).map (fun t => logistic t 0 1 2 1),
      min (1:ℝ) 2 ≤ x ∧ x ≤ max (1:ℝ) 2 :=
  ⟨by norm_num, logistic_range [0] 0 1 2 1 (by norm_num)⟩

end Rainbow
